import Mathlib

/-
Verification of the knapsack notebook
`knapsack-problem/knapsack-problem-python-solution.ipynb`.

The notebook solves a fixed 7-item 0/1 knapsack instance twice: once with
SciPy's `milp` (as a minimization of the negated values) and once with PuLP
(as a maximization with binary variables), then appends a boolean selection
column to the pandas dataframe after each solve.

The embedding below models the problem data, both solver models' feasible
sets and objectives, the recorded solver outputs, the solution-formatting
step, and the dataframe column operations.  Decimal weight literals are
embedded as exact rationals.
-/

set_option maxRecDepth 10000

/-- The knapsack capacity `knapsack_capacity = 5` (kg). -/
def knapsack_capacity : ℚ := 5

/-- The four parallel columns of the hardcoded `items` dictionary. -/
structure ItemsTable where
  itemId : List ℤ
  itemName : List String
  weightKg : List ℚ
  relativeValue : List ℤ

/-- The hardcoded problem data: the `items` dictionary of the notebook with
keys 'Item Id', 'Item Name', 'Weight (kg)', 'Relative Value'. -/
def items : ItemsTable :=
  { itemId := [1, 2, 3, 4, 5, 6, 7]
    itemName := ["Compass", "Knife", "Fire Starter Kit", "Tent", "Propane Cylinder", "Food",
      "Portable Telescope"]
    weightKg := [0.5, 1.5, 0.4, 1.0, 1.6, 1.1, 0.8]
    relativeValue := [6, 5, 4, 4, 3, 4, 1] }

/-- Dot product of a rational coefficient list with an integer vector,
`sum(c_i * x_i)` as used in the weight constraint of both models. -/
def dotQZ : List ℚ → List ℤ → ℚ
  | c :: cs, v :: vs => c * (v : ℚ) + dotQZ cs vs
  | _, _ => 0

/-- Dot product of two integer lists, `sum(c_i * x_i)` as used in the
objective of both models. -/
def dotZZ : List ℤ → List ℤ → ℤ
  | c :: cs, v :: vs => c * v + dotZZ cs vs
  | _, _ => 0

/-- SciPy objective coefficients:
`decision_variables = -np.array([1] * 7) * np.array(items['Relative Value'])`. -/
def decision_variables : List ℤ :=
  List.zipWith (fun a v => a * v) (List.replicate 7 (-1 : ℤ)) items.relativeValue

/-- SciPy variable lower bounds: `[0 for i in range(0, len(decision_variables))]`. -/
def lower_bounds : List ℤ :=
  (List.range decision_variables.length).map (fun _ => (0 : ℤ))

/-- SciPy variable upper bounds: `[1 for i in range(0, len(decision_variables))]`. -/
def upper_bounds : List ℤ :=
  (List.range decision_variables.length).map (fun _ => (1 : ℤ))

/-- SciPy integrality markers: `[1] * len(decision_variables)` (1 means the
decision variable must be an integer within bounds). -/
def integrality : List ℤ := List.replicate decision_variables.length (1 : ℤ)

/-- Feasible set of the SciPy model.  Since every entry of `integrality` is 1,
each variable ranges over the integers, so assignments are integer vectors;
the bounds come from `Bounds(lb = lower_bounds, ub = upper_bounds)` and the
single constraint from
`LinearConstraint(items['Weight (kg)'], lb = 0, ub = knapsack_capacity)`. -/
def scipyFeasible (x : List ℤ) : Prop :=
  List.Forall₂ (fun lb v => lb ≤ v) lower_bounds x ∧
  List.Forall₂ (fun v ub => v ≤ ub) x upper_bounds ∧
  0 ≤ dotQZ items.weightKg x ∧ dotQZ items.weightKg x ≤ knapsack_capacity

/-- SciPy objective (minimized): `c = decision_variables`. -/
def scipyObjective (x : List ℤ) : ℤ := dotZZ decision_variables x

/-- Optimality in the SciPy model: feasible and minimizing the objective. -/
def scipyOptimal (x : List ℤ) : Prop :=
  scipyFeasible x ∧ ∀ y : List ℤ, scipyFeasible y → scipyObjective x ≤ scipyObjective y

/-- The PuLP `weights` dictionary: `dict(zip(items['Item Name'], items['Weight (kg)']))`. -/
def weights : List (String × ℚ) := items.itemName.zip items.weightKg

/-- The PuLP `relative_values` dictionary:
`dict(zip(items['Item Name'], items['Relative Value']))`. -/
def relative_values : List (String × ℤ) := items.itemName.zip items.relativeValue

/-- Feasible set of the PuLP model: one decision variable per item name
(`LpVariable.dicts` with `lowBound = 0`, `upBound = 1`, `cat = LpBinary`),
listed positionally in the order of `items['Item Name']`, subject to
`lpSum([weights[i] * x1_decision_var[i] for i in items['Item Name']]) <= knapsack_capacity`.
Since the seven item names are distinct, the dictionary lookups pair each
name with the weight at the same index (proved below), so the constraint
coefficients are positional. -/
def pulpFeasible (x : List ℤ) : Prop :=
  x.length = items.itemName.length ∧ (∀ v ∈ x, v = 0 ∨ v = 1) ∧
  dotQZ items.weightKg x ≤ knapsack_capacity

/-- PuLP objective (maximized):
`lpSum([relative_values[i] * x1_decision_var[i] for i in items['Item Name']])`. -/
def pulpObjective (x : List ℤ) : ℤ := dotZZ items.relativeValue x

/-- Optimality in the PuLP model: feasible and maximizing the objective. -/
def pulpOptimal (x : List ℤ) : Prop :=
  pulpFeasible x ∧ ∀ y : List ℤ, pulpFeasible y → pulpObjective y ≤ pulpObjective x

/-- The selection vector (1,1,1,1,0,1,0) returned by both solver runs. -/
def x_opt : List ℤ := [1, 1, 1, 1, 0, 1, 0]

/-- The recorded SciPy solution vector `sol.x = [1., 1., 1., 1., 0., 1., 0.]`. -/
def sol_x : List ℚ := [1, 1, 1, 1, 0, 1, 0]

/-- The recorded PuLP variable values
`pulp_decision_var_results = [1.0, 1.0, 1.0, 1.0, 0.0, 1.0, 0.0]`. -/
def pulp_decision_var_results : List ℚ := [1, 1, 1, 1, 0, 1, 0]

/-- The solution-formatting step `[True if i==1 else False for i in xs]`
applied to a solver's returned vector. -/
def items_to_select (xs : List ℚ) : List Bool :=
  xs.map (fun v => if v = 1 then true else false)

/-- The boolean column `df['scipy_items_to_select']`. -/
def scipy_items_to_select : List Bool := items_to_select sol_x

/-- The boolean column `df['pulp_items_to_select']`. -/
def pulp_items_to_select : List Bool := items_to_select pulp_decision_var_results

/-- Names of the items selected by an integer selection vector (the rows whose
entry is 1), read off positionally from `items['Item Name']`. -/
def selectedNames (x : List ℤ) : List String :=
  ((items.itemName.zip x).filter (fun p => p.2 = 1)).map Prod.fst

/-- A dataframe cell value (the column types occurring in `df`). -/
inductive Val where
  | i : ℤ → Val
  | s : String → Val
  | q : ℚ → Val
  | b : Bool → Val
deriving DecidableEq

/-- The dataframe `df = pd.DataFrame(items)` as an ordered list of named
columns. -/
def df : List (String × List Val) :=
  [("Item Id", items.itemId.map Val.i),
   ("Item Name", items.itemName.map Val.s),
   ("Weight (kg)", items.weightKg.map Val.q),
   ("Relative Value", items.relativeValue.map Val.i)]

/-- Pandas column assignment `d[name] = col`: replaces the column if the name
already exists, otherwise appends a new column at the end. -/
def setColumn (d : List (String × List Val)) (name : String) (col : List Val) :
    List (String × List Val) :=
  if d.any (fun c => c.1 = name) then
    d.map (fun c => if c.1 = name then (name, col) else c)
  else
    d ++ [(name, col)]

/-- The dataframe after `df['scipy_items_to_select'] = [True if i==1 else False for i in sol.x]`,
the first of the only two statements of the notebook that modify `df` after
its construction. -/
def df_after_scipy : List (String × List Val) :=
  setColumn df "scipy_items_to_select" (scipy_items_to_select.map Val.b)

/-- The dataframe after
`df['pulp_items_to_select'] = [True if i==1 else False for i in pulp_decision_var_results]`,
the second and last statement of the notebook that modifies `df`. -/
def df_final : List (String × List Val) :=
  setColumn df_after_scipy "pulp_items_to_select" (pulp_items_to_select.map Val.b)

/-- The result object returned by `scipy.optimize.milp` (fields printed by the
notebook; `funValue` models the `fun` attribute). -/
structure MilpResult where
  message : String
  success : Bool
  status : ℤ
  funValue : ℚ
  x : List ℚ

/-- The notebook's handling of the SciPy solve result: `print(sol)` surfaces
the returned object itself, with no catch, retry, recovery, or transformation. -/
def scipy_solve_output (sol : MilpResult) : MilpResult := sol

/-- The notebook's handling of the PuLP solve status:
`print("Solution Status:", LpStatus[results], ...)` surfaces the returned
status code directly through the library's `LpStatus` lookup table, with no
catch, retry, recovery, or transformation. -/
def pulp_status_output (lpStatus : ℤ → String) (results : ℤ) : String :=
  lpStatus results

/-- The weights scaled by 10 to integers (0.5 kg = 5 tenths, etc.), used to
carry out exhaustive feasibility checks in integer arithmetic. -/
def weightsTenths : List ℤ := [5, 15, 4, 10, 16, 11, 8]

/-- All 0/1 integer vectors of a given length. -/
def binaryVecs : ℕ → List (List ℤ)
  | 0 => [[]]
  | n + 1 => (binaryVecs n).map (fun s => 1 :: s) ++ (binaryVecs n).map (fun s => 0 :: s)

/- ------------------------------------------------------------------ -/
/- Helper lemmas -/
/- ------------------------------------------------------------------ -/

lemma decision_variables_eq : decision_variables = items.relativeValue.map (fun v => -v) := by
  decide

lemma lower_bounds_eq : lower_bounds = List.replicate 7 (0 : ℤ) := by decide

lemma upper_bounds_eq : upper_bounds = List.replicate 7 (1 : ℤ) := by decide

lemma itemName_length : items.itemName.length = 7 := rfl

lemma weights_tenths_rel :
    List.Forall₂ (fun c (z : ℤ) => c * 10 = (z : ℚ)) items.weightKg weightsTenths := by
  simp [items, weightsTenths, List.forall₂_cons]
  norm_num

lemma dotQZ_scale (cs : List ℚ) :
    ∀ (zs : List ℤ) (x : List ℤ), List.Forall₂ (fun c (z : ℤ) => c * 10 = (z : ℚ)) cs zs →
      dotQZ cs x * 10 = ((dotZZ zs x : ℤ) : ℚ) := by
  induction cs with
  | nil =>
    intro zs x h
    cases h
    simp [dotQZ, dotZZ]
  | cons c cs ih =>
    intro zs x h
    cases h with
    | cons hcz htl =>
      cases x with
      | nil => simp [dotQZ, dotZZ]
      | cons v vs =>
        simp only [dotQZ, dotZZ]
        rw [add_mul, ih _ vs htl, mul_right_comm, hcz]
        push_cast
        ring

lemma dotQZ_weights_scaled (x : List ℤ) :
    dotQZ items.weightKg x * 10 = ((dotZZ weightsTenths x : ℤ) : ℚ) :=
  dotQZ_scale items.weightKg weightsTenths x weights_tenths_rel

lemma weight_le_iff (x : List ℤ) :
    dotQZ items.weightKg x ≤ knapsack_capacity ↔ dotZZ weightsTenths x ≤ 50 := by
  have h := dotQZ_weights_scaled x
  constructor
  · intro hle
    have h10 : dotQZ items.weightKg x * 10 ≤ 50 := by
      rw [knapsack_capacity] at hle
      linarith
    rw [h] at h10
    exact_mod_cast h10
  · intro hle
    have h10 : ((dotZZ weightsTenths x : ℤ) : ℚ) ≤ 50 := by exact_mod_cast hle
    rw [← h] at h10
    rw [knapsack_capacity]
    linarith

lemma weight_nonneg_iff (x : List ℤ) :
    0 ≤ dotQZ items.weightKg x ↔ 0 ≤ dotZZ weightsTenths x := by
  have h := dotQZ_weights_scaled x
  constructor
  · intro hle
    have h10 : (0 : ℚ) ≤ dotQZ items.weightKg x * 10 := by linarith
    rw [h] at h10
    exact_mod_cast h10
  · intro hle
    have h10 : (0 : ℚ) ≤ ((dotZZ weightsTenths x : ℤ) : ℚ) := by exact_mod_cast hle
    rw [← h] at h10
    linarith

lemma mem_binaryVecs : ∀ (x : List ℤ), (∀ v ∈ x, v = 0 ∨ v = 1) → x ∈ binaryVecs x.length := by
  intro x
  induction x with
  | nil => intro _; simp [binaryVecs]
  | cons v vs ih =>
    intro hb
    have hv := hb v (List.mem_cons_self v vs)
    have hvs := ih (fun w hw => hb w (List.mem_cons_of_mem v hw))
    simp only [List.length_cons, binaryVecs, List.mem_append, List.mem_map]
    rcases hv with h0 | h1
    · right; exact ⟨vs, hvs, by rw [h0]⟩
    · left; exact ⟨vs, hvs, by rw [h1]⟩

lemma bound_fact :
    ∀ x ∈ binaryVecs 7, dotZZ weightsTenths x ≤ 50 → dotZZ items.relativeValue x ≤ 23 := by
  decide

lemma uniq_fact :
    ∀ x ∈ binaryVecs 7, dotZZ weightsTenths x ≤ 50 → dotZZ items.relativeValue x = 23 →
      x = [1, 1, 1, 1, 0, 1, 0] := by
  decide

lemma strict_fact :
    ∀ x ∈ binaryVecs 7, dotZZ weightsTenths x ≤ 50 → x ≠ [1, 1, 1, 1, 0, 1, 0] →
      dotZZ items.relativeValue x < 23 := by
  decide

lemma nonneg_fact : ∀ x ∈ binaryVecs 7, 0 ≤ dotZZ weightsTenths x := by decide

lemma replicate_forallTwo_le {a : ℤ} :
    ∀ {n : ℕ} {x : List ℤ}, List.Forall₂ (fun lb v => lb ≤ v) (List.replicate n a) x →
      ∀ v ∈ x, a ≤ v := by
  intro n
  induction n with
  | zero => intro x h; cases h; intro v hv; simp at hv
  | succ m ih =>
    intro x h
    rw [List.replicate_succ] at h
    cases h with
    | cons hd tl =>
      intro v hv
      rcases List.mem_cons.mp hv with rfl | hmem
      · exact hd
      · exact ih tl v hmem

lemma replicate_forallTwo_ge {a : ℤ} :
    ∀ {n : ℕ} {x : List ℤ}, List.Forall₂ (fun v ub => v ≤ ub) x (List.replicate n a) →
      ∀ v ∈ x, v ≤ a := by
  intro n
  induction n with
  | zero => intro x h; cases h; intro v hv; simp at hv
  | succ m ih =>
    intro x h
    rw [List.replicate_succ] at h
    cases h with
    | cons hd tl =>
      intro v hv
      rcases List.mem_cons.mp hv with rfl | hmem
      · exact hd
      · exact ih tl v hmem

lemma binary_bounds :
    ∀ (x : List ℤ), (∀ v ∈ x, v = 0 ∨ v = 1) →
      List.Forall₂ (fun lb v => lb ≤ v) (List.replicate x.length (0 : ℤ)) x ∧
      List.Forall₂ (fun v ub => v ≤ ub) x (List.replicate x.length (1 : ℤ)) := by
  intro x
  induction x with
  | nil => intro _; exact ⟨List.Forall₂.nil, List.Forall₂.nil⟩
  | cons v vs ih =>
    intro hb
    have hv := hb v (List.mem_cons_self v vs)
    have hvs := ih (fun w hw => hb w (List.mem_cons_of_mem v hw))
    rw [List.length_cons, List.replicate_succ]
    exact ⟨List.Forall₂.cons (by omega) hvs.1, List.Forall₂.cons (by omega) hvs.2⟩

lemma scipyFeasible_binary {x : List ℤ} (h : scipyFeasible x) :
    x.length = 7 ∧ ∀ v ∈ x, v = 0 ∨ v = 1 := by
  obtain ⟨h1, h2, _, _⟩ := h
  have hlen : x.length = 7 := by
    have := h1.length_eq
    rw [lower_bounds_eq] at this
    simpa using this.symm
  refine ⟨hlen, fun v hv => ?_⟩
  rw [lower_bounds_eq] at h1
  rw [upper_bounds_eq] at h2
  have hge := replicate_forallTwo_le h1 v hv
  have hle := replicate_forallTwo_ge h2 v hv
  omega

lemma feasible_iff (x : List ℤ) : scipyFeasible x ↔ pulpFeasible x := by
  constructor
  · intro h
    obtain ⟨hlen, hb⟩ := scipyFeasible_binary h
    exact ⟨hlen.trans itemName_length.symm, hb, h.2.2.2⟩
  · rintro ⟨hlen, hb, hw⟩
    have hlen7 : x.length = 7 := hlen.trans itemName_length
    have hbounds := binary_bounds x hb
    rw [hlen7] at hbounds
    refine ⟨by rw [lower_bounds_eq]; exact hbounds.1, by rw [upper_bounds_eq]; exact hbounds.2,
      ?_, hw⟩
    have hm := mem_binaryVecs x hb
    rw [hlen7] at hm
    exact (weight_nonneg_iff x).2 (nonneg_fact x hm)

lemma dotZZ_map_neg (cs : List ℤ) :
    ∀ x : List ℤ, dotZZ (cs.map (fun v => -v)) x = -(dotZZ cs x) := by
  induction cs with
  | nil => intro x; simp [dotZZ]
  | cons c cs ih =>
    intro x
    cases x with
    | nil => simp [dotZZ]
    | cons v vs =>
      simp only [List.map_cons, dotZZ]
      rw [ih vs]
      ring

lemma obj_neg (x : List ℤ) : scipyObjective x = -(pulpObjective x) := by
  rw [scipyObjective, pulpObjective, decision_variables_eq, dotZZ_map_neg]

lemma optimal_iff (x : List ℤ) : scipyOptimal x ↔ pulpOptimal x := by
  constructor
  · rintro ⟨hf, hopt⟩
    refine ⟨(feasible_iff x).1 hf, fun y hy => ?_⟩
    have h := hopt y ((feasible_iff y).2 hy)
    rw [obj_neg x, obj_neg y] at h
    omega
  · rintro ⟨hf, hopt⟩
    refine ⟨(feasible_iff x).2 hf, fun y hy => ?_⟩
    have h := hopt y ((feasible_iff y).1 hy)
    rw [obj_neg x, obj_neg y]
    omega

lemma pulp_bound (y : List ℤ) (hy : pulpFeasible y) : pulpObjective y ≤ 23 := by
  obtain ⟨hlen, hb, hw⟩ := hy
  have hm := mem_binaryVecs y hb
  rw [hlen.trans itemName_length] at hm
  exact bound_fact y hm ((weight_le_iff y).1 hw)

lemma pulpFeasible_x_opt : pulpFeasible x_opt :=
  ⟨rfl, by decide, (weight_le_iff x_opt).2 (by decide)⟩

lemma pulpOptimal_x_opt : pulpOptimal x_opt := by
  refine ⟨pulpFeasible_x_opt, fun y hy => ?_⟩
  have h23 : pulpObjective x_opt = 23 := by decide
  rw [h23]
  exact pulp_bound y hy

lemma scipyOptimal_x_opt : scipyOptimal x_opt := (optimal_iff x_opt).2 pulpOptimal_x_opt

lemma x_opt_weight : dotQZ items.weightKg x_opt = 4.5 := by
  norm_num [dotQZ, items, x_opt]

lemma x_opt_weight_le : dotQZ items.weightKg x_opt ≤ knapsack_capacity :=
  (weight_le_iff x_opt).2 (by decide)

lemma x_opt_lb : List.Forall₂ (fun lb v => lb ≤ v) lower_bounds x_opt := by
  rw [lower_bounds_eq]
  exact (binary_bounds x_opt (by decide)).1

lemma x_opt_ub : List.Forall₂ (fun v ub => v ≤ ub) x_opt upper_bounds := by
  rw [upper_bounds_eq]
  exact (binary_bounds x_opt (by decide)).2

lemma half_mem_weights : (0.5 : ℚ) ∈ items.weightKg := List.mem_cons_self _ _

/- ------------------------------------------------------------------ -/
/- Claims -/
/- ------------------------------------------------------------------ -/

/-- C1: for the hardcoded dataset (weights [0.5, 1.5, 0.4, 1.0, 1.6, 1.1, 0.8],
values [6, 5, 4, 4, 3, 4, 1], capacity 5), the selection vector (1,1,1,1,0,1,0)
— items Compass, Knife, Fire Starter Kit, Tent, Food — is an optimal knapsack
solution: its total value is 23, its total weight is 4.5 ≤ 5, and every 0/1
vector of length 7 whose total weight is at most 5 has total value at most 23. -/
theorem c1_fixed_dataset_optimal :
    dotZZ items.relativeValue x_opt = 23 ∧
    dotQZ items.weightKg x_opt = 4.5 ∧
    dotQZ items.weightKg x_opt ≤ knapsack_capacity ∧
    selectedNames x_opt = ["Compass", "Knife", "Fire Starter Kit", "Tent", "Food"] ∧
    (∀ x : List ℤ, x.length = 7 → (∀ v ∈ x, v = 0 ∨ v = 1) →
      dotQZ items.weightKg x ≤ knapsack_capacity → dotZZ items.relativeValue x ≤ 23) := by
  refine ⟨by decide, x_opt_weight, x_opt_weight_le, by decide, fun x hlen hb hw => ?_⟩
  have hm := mem_binaryVecs x hb
  rw [hlen] at hm
  exact bound_fact x hm ((weight_le_iff x).1 hw)

/-- Witness for C1: instantiating the optimality bound at the selection vector
itself, discharging its hypotheses concretely. -/
theorem c1_fixed_dataset_optimal_witness : dotZZ items.relativeValue x_opt ≤ 23 :=
  c1_fixed_dataset_optimal.2.2.2.2 x_opt rfl (by decide) x_opt_weight_le

/-- C2: the SciPy model (minimize the negated values over integer vectors with
bounds [0,1] and the weight constraint) and the PuLP model (maximize the values
over binary vectors with the weight constraint) are equivalent formulations:
a vector is optimal for one iff it is optimal for the other, the objectives
are negatives of each other with optimal values -23 and 23, and both recorded
runs produced the same selection, so the formatted boolean columns agree. -/
theorem c2_scipy_pulp_equivalent :
    (∀ x : List ℤ, scipyOptimal x ↔ pulpOptimal x) ∧
    (∀ x : List ℤ, scipyObjective x = -(pulpObjective x)) ∧
    scipyOptimal x_opt ∧ pulpOptimal x_opt ∧
    scipyObjective x_opt = -23 ∧ pulpObjective x_opt = 23 ∧
    scipy_items_to_select = pulp_items_to_select :=
  ⟨optimal_iff, obj_neg, scipyOptimal_x_opt, pulpOptimal_x_opt, by decide, by decide, rfl⟩

/-- Witness for C2: the optimality equivalence instantiated at the recorded
solution vector. -/
theorem c2_scipy_pulp_equivalent_witness : scipyOptimal x_opt ↔ pulpOptimal x_opt :=
  c2_scipy_pulp_equivalent.1 x_opt

/-- C3: the solution-formatting step maps the solver's returned vector to the
boolean column entrywise: the i-th entry of `items_to_select xs` is `true`
exactly when the i-th entry of `xs` equals 1, and `false` otherwise (so any
value other than exactly 1, a fractional value included, yields `false`). -/
theorem c3_items_to_select_entrywise (xs : List ℚ) (i : ℕ) (h : i < xs.length)
    (h2 : i < (items_to_select xs).length) :
    ((items_to_select xs).get ⟨i, h2⟩ = true ↔ xs.get ⟨i, h⟩ = 1) ∧
    (items_to_select xs).length = xs.length := by
  constructor
  · rw [List.get_eq_getElem, List.get_eq_getElem]
    simp only [items_to_select, List.getElem_map]
    by_cases h3 : xs[i] = 1 <;> simp [h3]
  · simp [items_to_select]

/-- Witness for C3: the formatting of the vector [1, 2] at index 1, whose
value 2 differs from 1 and is mapped to `false`. -/
theorem c3_items_to_select_entrywise_witness :
    ((items_to_select [1, 2]).get ⟨1, by decide⟩ = true ↔
      ([1, 2] : List ℚ).get ⟨1, by decide⟩ = 1) ∧
    (items_to_select [1, 2]).length = ([1, 2] : List ℚ).length :=
  c3_items_to_select_entrywise [1, 2] 1 (by decide) (by decide)

/-- C4: the problem dataframe is read-only through the solves: the final
dataframe is exactly the original four-column dataframe with the two boolean
solution columns appended at the end (so the four original columns
'Item Id', 'Item Name', 'Weight (kg)', 'Relative Value' are never modified,
and the only mutations are the two column appends). -/
theorem c4_dataframe_read_only :
    df_final = df ++ [("scipy_items_to_select", scipy_items_to_select.map Val.b),
      ("pulp_items_to_select", pulp_items_to_select.map Val.b)] ∧
    df_final.take 4 = df ∧
    df.map Prod.fst = ["Item Id", "Item Name", "Weight (kg)", "Relative Value"] :=
  ⟨rfl, rfl, rfl⟩

/-- C5: the hardcoded items table consists of parallel arrays of equal length
7, and every model built from it pairs entries purely positionally: the PuLP
dictionaries map the i-th item name to the i-th weight and the i-th value, and
the i-th SciPy objective coefficient is the negation of the i-th value. -/
theorem c5_parallel_arrays_positional :
    items.itemId.length = 7 ∧ items.itemName.length = 7 ∧ items.weightKg.length = 7 ∧
    items.relativeValue.length = 7 ∧
    (∀ (i : ℕ) (nm : String), items.itemName[i]? = some nm →
      weights.lookup nm = items.weightKg[i]? ∧
      relative_values.lookup nm = items.relativeValue[i]?) ∧
    (∀ i : ℕ, decision_variables[i]? = (items.relativeValue[i]?).map (fun v => -v)) := by
  refine ⟨rfl, rfl, rfl, rfl, ?_, ?_⟩
  · intro i nm h
    match i with
    | 0 => exact ⟨by cases h; rfl, by cases h; rfl⟩
    | 1 => exact ⟨by cases h; rfl, by cases h; rfl⟩
    | 2 => exact ⟨by cases h; rfl, by cases h; rfl⟩
    | 3 => exact ⟨by cases h; rfl, by cases h; rfl⟩
    | 4 => exact ⟨by cases h; rfl, by cases h; rfl⟩
    | 5 => exact ⟨by cases h; rfl, by cases h; rfl⟩
    | 6 => exact ⟨by cases h; rfl, by cases h; rfl⟩
    | n + 7 => simp [items] at h
  · intro i
    match i with
    | 0 => rfl
    | 1 => rfl
    | 2 => rfl
    | 3 => rfl
    | 4 => rfl
    | 5 => rfl
    | 6 => rfl
    | n + 7 => rw [decision_variables_eq]; simp [items]

/-- Witness for C5: the dictionary lookups and the objective coefficient at
index 0 ('Compass'). -/
theorem c5_parallel_arrays_positional_witness :
    (weights.lookup "Compass" = items.weightKg[0]? ∧
      relative_values.lookup "Compass" = items.relativeValue[0]?) ∧
    decision_variables[0]? = (items.relativeValue[0]?).map (fun v => -v) :=
  ⟨c5_parallel_arrays_positional.2.2.2.2.1 0 "Compass" rfl,
    c5_parallel_arrays_positional.2.2.2.2.2 0⟩

/-- C6: every decision variable in both models is binary: the SciPy model uses
lower bounds 0, upper bounds 1 and integrality 1 for all 7 variables, the PuLP
variables are binary, and any assignment feasible for either model has every
entry in {0, 1}. -/
theorem c6_all_variables_binary :
    lower_bounds = List.replicate 7 0 ∧ upper_bounds = List.replicate 7 1 ∧
    integrality = List.replicate 7 1 ∧ decision_variables.length = 7 ∧
    (∀ x : List ℤ, scipyFeasible x → ∀ v ∈ x, v = 0 ∨ v = 1) ∧
    (∀ x : List ℤ, pulpFeasible x → ∀ v ∈ x, v = 0 ∨ v = 1) :=
  ⟨lower_bounds_eq, upper_bounds_eq, by decide, rfl,
    fun _ hf => (scipyFeasible_binary hf).2, fun _ hf => hf.2.1⟩

/-- Witness for C6: the first entry of the recorded solution vector, feasible
for the PuLP model, is binary. -/
theorem c6_all_variables_binary_witness : (1 : ℤ) = 0 ∨ (1 : ℤ) = 1 :=
  c6_all_variables_binary.2.2.2.2.2 x_opt pulpFeasible_x_opt 1 (by decide)

/-- C7: the notebook performs no error handling around the solve calls: the
SciPy result object is surfaced exactly as returned, and the PuLP status code
is surfaced directly through the library's status lookup, for every possible
status value (infeasible or unbounded codes included), with no catch, retry,
recovery, or transformation. -/
theorem c7_no_error_handling :
    (∀ sol : MilpResult, scipy_solve_output sol = sol) ∧
    (∀ (lpStatus : ℤ → String) (results : ℤ),
      pulp_status_output lpStatus results = lpStatus results) :=
  ⟨fun _ => rfl, fun _ _ => rfl⟩

/-- C8: the optimal selection for the fixed dataset is unique: (1,1,1,1,0,1,0)
is the only 0/1 vector of length 7 within the capacity that attains value 23,
and every other feasible binary vector has strictly smaller total value; hence
the two recorded solver runs agree on the selection. -/
theorem c8_optimal_selection_unique :
    (∀ x : List ℤ, x.length = 7 → (∀ v ∈ x, v = 0 ∨ v = 1) →
      dotQZ items.weightKg x ≤ knapsack_capacity → dotZZ items.relativeValue x = 23 →
      x = x_opt) ∧
    (∀ x : List ℤ, x.length = 7 → (∀ v ∈ x, v = 0 ∨ v = 1) →
      dotQZ items.weightKg x ≤ knapsack_capacity → x ≠ x_opt →
      dotZZ items.relativeValue x < 23) ∧
    scipy_items_to_select = pulp_items_to_select := by
  refine ⟨fun x hlen hb hw hv => ?_, fun x hlen hb hw hne => ?_, rfl⟩
  · have hm := mem_binaryVecs x hb
    rw [hlen] at hm
    exact uniq_fact x hm ((weight_le_iff x).1 hw) hv
  · have hm := mem_binaryVecs x hb
    rw [hlen] at hm
    exact strict_fact x hm ((weight_le_iff x).1 hw) hne

/-- Witness for C8: the empty knapsack is feasible, differs from the optimal
selection, and has value strictly below 23. -/
theorem c8_optimal_selection_unique_witness :
    dotZZ items.relativeValue [0, 0, 0, 0, 0, 0, 0] < 23 :=
  c8_optimal_selection_unique.2.1 [0, 0, 0, 0, 0, 0, 0] rfl (by decide)
    ((weight_le_iff [0, 0, 0, 0, 0, 0, 0]).2 (by decide)) (by decide)

/-- C9: the extra lower bound 0 on the SciPy weight constraint never excludes
any assignment: all weights are nonnegative, every vector within the variable
bounds has nonnegative total weight, and the SciPy feasible set coincides with
the PuLP feasible set (defined by the upper-bound constraint alone). -/
theorem c9_constraint_lower_bound_redundant :
    (∀ w ∈ items.weightKg, 0 ≤ w) ∧
    (∀ x : List ℤ, List.Forall₂ (fun lb v => lb ≤ v) lower_bounds x →
      List.Forall₂ (fun v ub => v ≤ ub) x upper_bounds →
      0 ≤ dotQZ items.weightKg x) ∧
    (∀ x : List ℤ, scipyFeasible x ↔ pulpFeasible x) := by
  refine ⟨?_, fun x h1 h2 => ?_, feasible_iff⟩
  · intro w hw
    simp only [items, List.mem_cons, List.not_mem_nil, or_false] at hw
    rcases hw with rfl | rfl | rfl | rfl | rfl | rfl | rfl <;> norm_num
  · have hlen : x.length = 7 := by
      have := h1.length_eq
      rw [lower_bounds_eq] at this
      simpa using this.symm
    have hb : ∀ v ∈ x, v = 0 ∨ v = 1 := by
      rw [lower_bounds_eq] at h1
      rw [upper_bounds_eq] at h2
      intro v hv
      have hge := replicate_forallTwo_le h1 v hv
      have hle := replicate_forallTwo_ge h2 v hv
      omega
    have hm := mem_binaryVecs x hb
    rw [hlen] at hm
    exact (weight_nonneg_iff x).2 (nonneg_fact x hm)

/-- Witness for C9: the weight 0.5 is nonnegative, the recorded solution
vector lies within the variable bounds and has nonnegative total weight, and
the feasibility equivalence instantiated at it. -/
theorem c9_constraint_lower_bound_redundant_witness :
    (0 : ℚ) ≤ 0.5 ∧ 0 ≤ dotQZ items.weightKg x_opt ∧
    (scipyFeasible x_opt ↔ pulpFeasible x_opt) :=
  ⟨c9_constraint_lower_bound_redundant.1 0.5 half_mem_weights,
    c9_constraint_lower_bound_redundant.2.1 x_opt x_opt_lb x_opt_ub,
    c9_constraint_lower_bound_redundant.2.2 x_opt⟩
